import Mathlib

/-!
The service testTask: registration / login service and chat hub

A shallow embedding of the Go service:

* `repository` : `pkg/repository/pgstore.go` (the `users` store, bcrypt hashing,
  `PG.Registration`, `PG.Login`);
* `internal`   : `internal/service.go` (`App.Registration`, `App.Login`);
* `rest`       : `internal/rest/http.go` (`Router.registration`, `Router.login`);
* `hub`        : the chat hub (`newHub`, `Hub.run`, `serveWs`), whose source file is
  not part of the tree and is modelled from the specification;
* `service`    : the wiring of the service and the shutdown path of
  `cmd/service/main.go`.

Go errors are values of `GoError`; `fmt.Errorf("...%w", err)` is the constructor
`GoError.wrap`, and `errors.Is` / `errors.As` walk the chain of wrapped errors.
Handlers are state-passing functions over the store.
-/

set_option autoImplicit false

/-! ## Go errors -/

/-- Error values that flow through the service. -/
inductive GoError where
  /-- The sentinel `repository.ErrInvalidCredentials`. -/
  | ErrInvalidCredentials
  /-- The sentinel `repository.ErrAlreadyExists`. -/
  | ErrAlreadyExists
  /-- The sentinel `sql.ErrNoRows` of `database/sql`. -/
  | ErrNoRows
  /-- A `*pgconn.PgError` with its SQLSTATE code and message. -/
  | PgError (code : String) (message : String)
  /-- Any other error value (JSON decoding, bcrypt, driver), with its text. -/
  | other (text : String)
  /-- The value built by `fmt.Errorf(lead + "%w", inner)`. -/
  | wrap (lead : String) (inner : GoError)
  deriving DecidableEq, Repr

namespace GoError

/-- The method `Error()`. -/
def Error : GoError → String
  | ErrInvalidCredentials => "err invalid credintials"
  | ErrAlreadyExists => "username alredy exists"
  | ErrNoRows => "sql: no rows in result set"
  | PgError code message => "ERROR: " ++ message ++ " (SQLSTATE " ++ code ++ ")"
  | other text => text
  | wrap lead inner => lead ++ inner.Error

end GoError

/-- The function `errors.Is(err, target)`: `err` or an error it wraps is `target`. -/
def errorsIs : GoError → GoError → Bool
  | .wrap lead inner, target =>
      if GoError.wrap lead inner = target then true else errorsIs inner target
  | err, target => decide (err = target)

/-- The function `errors.As(err, &pgErr)` for `pgErr : *pgconn.PgError`: the SQLSTATE
code of the first `PgError` in the chain. -/
def errorsAsPgError : GoError → Option String
  | .PgError code _ => some code
  | .wrap _ inner => errorsAsPgError inner
  | _ => none

/-- The constant `pgerrcode.UniqueViolation`. -/
def pgerrcode.UniqueViolation : String := "23505"

/-! ## HTTP status codes (`net/http`) -/

def http.StatusOK : Nat := 200
def http.StatusCreated : Nat := 201
def http.StatusBadRequest : Nat := 400
def http.StatusForbidden : Nat := 403
def http.StatusConflict : Nat := 409
def http.StatusInternalServerError : Nat := 500

/-! ## `pkg/repository/pgstore.go` -/

namespace repository

/-- The struct `User`. -/
structure User where
  ID : Int
  Username : String
  Password : String
  deriving DecidableEq, Repr

/-- The package `golang.org/x/crypto/bcrypt`, taken as a parameter.
`GenerateFromPassword password cost salt` is the Go call of that name, `salt`
standing for the random bytes it draws; `CompareHashAndPassword hash password`
returns `none` for a `nil` error. -/
structure Bcrypt where
  GenerateFromPassword : String → Nat → Nat → Except GoError String
  CompareHashAndPassword : String → String → Option GoError

/-- The contract of bcrypt: a generated hash compares equal to its password. -/
def Bcrypt.Sound (B : Bcrypt) : Prop :=
  ∀ password cost salt hash,
    B.GenerateFromPassword password cost salt = .ok hash →
      B.CompareHashAndPassword hash password = none

/-- A row of the table `users`. -/
structure Row where
  id : Int
  username : String
  password : String
  deriving DecidableEq, Repr

/-- Modelled from the spec: the table `users` of the relational store. The
migrations that create it are embedded from a directory that is not in the
tree; the model is the table the queries and the integration tests rely on:
columns `id`, `username`, `password`, with `id` assigned by the store. -/
structure DB where
  rows : List Row
  nextId : Int
  deriving Repr

/-- Modelled from the spec: `INSERT INTO users (username, password) VALUES ($1,$2)
RETURNING id` followed by `row.Scan(&id)`. Usernames are unique
(`TestRegisterConflict`): a second row with a stored username is rejected with
SQLSTATE 23505, and otherwise the row is stored, with the hash as it was given,
under the next id of the table. -/
def DB.insertUser (db : DB) (username hash : String) : Except GoError Int × DB :=
  if db.rows.any (fun r => r.username == username) then
    (.error (.PgError pgerrcode.UniqueViolation
      "duplicate key value violates unique constraint"), db)
  else
    (.ok db.nextId,
      { rows := db.rows ++ [⟨db.nextId, username, hash⟩], nextId := db.nextId + 1 })

/-- The row that `SELECT ... FROM users WHERE username = $1` yields to `GetContext`. -/
def DB.findUser (db : DB) (username : String) : Option Row :=
  db.rows.find? (fun r => r.username == username)

/-- The call `db.GetContext(ctx, &hash, "SELECT password FROM users WHERE username = $1")`:
`sql.ErrNoRows` when there is no row. -/
def DB.getPassword (db : DB) (username : String) : Except GoError String :=
  match db.findUser username with
  | none => .error .ErrNoRows
  | some r => .ok r.password

/-- The call `db.GetContext(ctx, &resp, "SELECT id, username, password FROM users
WHERE username = $1")`. -/
def DB.getUser (db : DB) (username : String) : Except GoError User :=
  match db.findUser username with
  | none => .error .ErrNoRows
  | some r => .ok ⟨r.id, r.username, r.password⟩

/-- The method `PG.hashPassword`: cost 10, the error of bcrypt is dropped, so a
failed call yields the empty (nil) hash. -/
def PG.hashPassword (B : Bcrypt) (salt : Nat) (password : String) : String :=
  let cost := 10
  match B.GenerateFromPassword password cost salt with
  | .ok hash => hash
  | .error _ => ""

/-- The method `PG.Registration`. -/
def PG.Registration (B : Bcrypt) (salt : Nat) (user : User) (db : DB) :
    Except GoError Int × DB :=
  match db.insertUser user.Username (PG.hashPassword B salt user.Password) with
  | (.error err, db1) =>
      match errorsAsPgError err with
      | some code =>
          if code = pgerrcode.UniqueViolation then (.error .ErrAlreadyExists, db1)
          else (.error (.wrap "err while the registration: " err), db1)
      | none => (.error (.wrap "err while the registration: " err), db1)
  | (.ok id, db1) => (.ok id, db1)

/-- The method `PG.Login`. -/
def PG.Login (B : Bcrypt) (user : User) (db : DB) : Except GoError User × DB :=
  match db.getPassword user.Username with
  | .error err => (.error err, db)
  | .ok hash =>
      match B.CompareHashAndPassword hash user.Password with
      | some _ => (.error .ErrInvalidCredentials, db)
      | none =>
          match db.getUser user.Username with
          | .error err => (.error (.wrap "err logining user : " err), db)
          | .ok resp => (.ok resp, db)

end repository

/-! ## `internal/service.go` -/

namespace internal

open repository

/-- The interface `Storage`, over a store state `σ`. -/
structure Storage (σ : Type) where
  Registration : User → σ → Except GoError Int × σ
  Login : User → σ → Except GoError User × σ

/-- The method `App.Registration`. -/
def App.Registration {σ : Type} (store : Storage σ) (user : User) (s : σ) :
    Except GoError Int × σ :=
  match store.Registration user s with
  | (.error err, s1) => (.error (.wrap "err while registration: " err), s1)
  | (.ok id, s1) => (.ok id, s1)

/-- The method `App.Login`. -/
def App.Login {σ : Type} (store : Storage σ) (user : User) (s : σ) :
    Except GoError User × σ :=
  match store.Login user s with
  | (.error err, s1) => (.error (.wrap "err while login: " err), s1)
  | (.ok u, s1) => (.ok u, s1)

end internal

/-! ## `internal/rest/http.go` -/

namespace rest

open repository

/-- The interface `App`, over a store state `σ`. -/
structure App (σ : Type) where
  Registration : User → σ → Except GoError Int × σ
  Login : User → σ → Except GoError User × σ

/-- The value handed to `c.JSON`. -/
inductive JSON where
  /-- The text of an error, `err.Error()`. -/
  | text (s : String)
  /-- The object `gin.H` with the single key `id`. -/
  | id (id : Int)
  /-- A `repository.User`. -/
  | user (u : User)
  deriving DecidableEq, Repr

/-- The response written by a handler. -/
structure Response where
  status : Nat
  body : JSON
  deriving DecidableEq, Repr

/-- The request body as `c.BindJSON(&input)` sees it: either it does not decode,
with the error of the decoder, or it decodes to a `User`. -/
inductive Body where
  | malformed (err : GoError)
  | wellFormed (input : User)
  deriving Repr

/-- The call `c.BindJSON(&input)`. -/
def BindJSON : Body → Except GoError User
  | .malformed err => .error err
  | .wellFormed input => .ok input

/-- The handler `Router.registration`. -/
def Router.registration {σ : Type} (app : App σ) (body : Body) (s : σ) : Response × σ :=
  match BindJSON body with
  | .error err => (⟨http.StatusBadRequest, .text err.Error⟩, s)
  | .ok input =>
      match app.Registration input s with
      | (.ok id, s1) => (⟨http.StatusCreated, .id id⟩, s1)
      | (.error err, s1) =>
          if errorsIs err .ErrInvalidCredentials then
            (⟨http.StatusForbidden, .text err.Error⟩, s1)
          else if errorsIs err .ErrAlreadyExists then
            (⟨http.StatusConflict, .text err.Error⟩, s1)
          else
            (⟨http.StatusInternalServerError, .text err.Error⟩, s1)

/-- The handler `Router.login`. -/
def Router.login {σ : Type} (app : App σ) (body : Body) (s : σ) : Response × σ :=
  match BindJSON body with
  | .error err => (⟨http.StatusBadRequest, .text err.Error⟩, s)
  | .ok input =>
      match app.Login input s with
      | (.ok user, s1) => (⟨http.StatusOK, .user user⟩, s1)
      | (.error err, s1) =>
          if errorsIs err .ErrInvalidCredentials then
            (⟨http.StatusForbidden, .text err.Error⟩, s1)
          else
            (⟨http.StatusInternalServerError, .text err.Error⟩, s1)

end rest

/-! ## The service as wired by `main` and by the test suite -/

namespace service

open repository

/-- The store `*repository.PG` as a `Storage`; `salt` is the randomness that the
hashing of this call draws. -/
def pgStorage (B : Bcrypt) (salt : Nat) : internal.Storage DB where
  Registration := PG.Registration B salt
  Login := PG.Login B

/-- The value `internal.NewApp(log, pg)` as a `rest.App`. -/
def app (B : Bcrypt) (salt : Nat) : rest.App DB where
  Registration := internal.App.Registration (pgStorage B salt)
  Login := internal.App.Login (pgStorage B salt)

/-- A request to one of the two routes of the group `/api/v1`. -/
inductive Request where
  /-- The request `POST /registration`, with the salt its hashing draws. -/
  | registration (body : rest.Body) (salt : Nat)
  /-- The request `POST /login`. -/
  | login (body : rest.Body)
  deriving Repr

/-- The router serves one request. -/
def serve (B : Bcrypt) (db : DB) : Request → rest.Response × DB
  | .registration body salt => rest.Router.registration (app B salt) body db
  | .login body => rest.Router.login (app B 0) body db

/-- The store after a sequence of requests has been served in order. -/
def serveAll (B : Bcrypt) (db : DB) : List Request → DB
  | [] => db
  | req :: later => serveAll B (serve B db req).2 later

/-- The request `POST /registration` whose body is the JSON of `input`. -/
def postRegistration (B : Bcrypt) (salt : Nat) (input : User) (db : DB) :
    rest.Response × DB :=
  serve B db (.registration (.wellFormed input) salt)

/-- The request `POST /login` whose body is the JSON of `input`. -/
def postLogin (B : Bcrypt) (input : User) (db : DB) : rest.Response × DB :=
  serve B db (.login (.wellFormed input))

/-- A small instance of the bcrypt interface, used to evaluate the service on
concrete requests: passwords longer than 72 bytes are refused, the hash of a
password is the password behind a marker. -/
def demoBcrypt : Bcrypt where
  GenerateFromPassword := fun password _ _ =>
    if password.length ≤ 72 then .ok ("$2a$10$" ++ password)
    else .error (.other "bcrypt: password length exceeds 72 bytes")
  CompareHashAndPassword := fun hash password =>
    if hash = "$2a$10$" ++ password then none
    else some (.other "crypto/bcrypt: hashedPassword is not the hash of the given password")

/-- The empty table. -/
def emptyDB : DB := ⟨[], 1⟩

/-- A password of 73 characters, one more than bcrypt accepts. -/
def longPassword : String :=
  "aaaaaaaaaaaaaaaaaaaaaaaaaaaaaaaaaaaaaaaaaaaaaaaaaaaaaaaaaaaaaaaaaaaaaaaaa"

end service

/-! ## The chat hub -/

namespace hub

/-- The identity of a connection: a handle, unique for one transport session. -/
abbrev ConnId := Nat

/-- A message payload; its content is not interpreted. -/
abbrev Payload := String

/-- Modelled from the spec: the hub of `internal/rest` (`newHub`, `Hub.run`, `serveWs`),
whose source file is not in the tree. The registry is the set `clients` of registered
connections; every connection owns a bounded outbound queue `send`, a stream that is
open or closed, and the payloads already written to its transport. -/
structure Hub where
  capacity : Nat
  clients : Finset ConnId
  send : ConnId → List Payload
  closed : ConnId → Bool
  written : ConnId → List Payload

/-- Modelled from the spec: the registry created at service startup, with no member. -/
def newHub (capacity : Nat) : Hub :=
  { capacity := capacity, clients := ∅, send := fun _ => [], closed := fun _ => false,
    written := fun _ => [] }

namespace Hub

/-- Modelled from the spec: `register(connection)` adds the connection to the active
set and always succeeds. -/
def register (h : Hub) (c : ConnId) : Hub :=
  { h with clients := insert c h.clients }

/-- Modelled from the spec: `unregister(connection)` removes the connection from the
active set if present, closes and drains its outbound queue and closes its stream;
for a connection that is not present it does nothing. -/
def unregister (h : Hub) (c : ConnId) : Hub :=
  if c ∈ h.clients then
    { h with
      clients := h.clients.erase c
      send := fun d => if d = c then [] else h.send d
      closed := fun d => if d = c then true else h.closed d }
  else h

/-- Modelled from the spec: the attempt to enqueue on a bounded queue, which does not
block: the longer queue, or `none` when the queue is full. -/
def offer (capacity : Nat) (queue : List Payload) (payload : Payload) :
    Option (List Payload) :=
  if queue.length < capacity then some (queue ++ [payload]) else none

/-- Modelled from the spec: `broadcast(payload, excludeConnection)` attempts to enqueue
the payload for each member other than the excluded one; a member whose queue is
full is dropped, which is the same as unregistering it. -/
def broadcast (h : Hub) (payload : Payload) (exclude : Option ConnId) : Hub :=
  let targets := h.clients.filter (fun c => exclude ≠ some c)
  let dropped := targets.filter (fun c => offer h.capacity (h.send c) payload = none)
  { h with
    clients := h.clients \ dropped
    send := fun c =>
      if c ∈ targets then (offer h.capacity (h.send c) payload).getD [] else h.send c
    closed := fun c => if c ∈ dropped then true else h.closed c }

/-- Modelled from the spec: `onMessage(sourceConnection, payload)` of the broadcaster,
with the sender excluded. -/
def onMessage (h : Hub) (source : ConnId) (payload : Payload) : Hub :=
  h.broadcast payload (some source)

/-- Modelled from the spec: one turn of the outbound pump of a connection: the oldest
queued payload is dequeued and written to the transport; a failed write triggers
`unregister`; with an empty queue the pump waits. -/
def writePump (h : Hub) (c : ConnId) (writeOk : Bool) : Hub :=
  match h.send c with
  | [] => h
  | payload :: queue =>
      if writeOk then
        { h with
          send := fun d => if d = c then queue else h.send d
          written := fun d => if d = c then h.written d ++ [payload] else h.written d }
      else h.unregister c

end Hub

/-- Modelled from the spec: the endpoint adapter `serveWs` on a new transport session:
a connection with an empty queue and an open stream is constructed and registered. -/
def serveWs (h : Hub) (c : ConnId) : Hub :=
  Hub.register
    { h with
      send := fun d => if d = c then [] else h.send d
      closed := fun d => if d = c then false else h.closed d
      written := fun d => if d = c then [] else h.written d } c

/-- A command received by the command loop of the hub. -/
inductive Command where
  | register (c : ConnId)
  | unregister (c : ConnId)
  | broadcast (payload : Payload) (exclude : Option ConnId)

/-- Modelled from the spec: one turn of the command loop `Hub.run`. -/
def Hub.step (h : Hub) : Command → Hub
  | .register c => h.register c
  | .unregister c => h.unregister c
  | .broadcast payload exclude => h.broadcast payload exclude

/-- Modelled from the spec: the command loop `Hub.run`, the single point through which
all commands pass: they are handled one at a time, in the order of arrival. -/
def Hub.run (h : Hub) (commands : List Command) : Hub :=
  commands.foldl Hub.step h

/-- An operation on the membership of the registry. -/
inductive RegistryOp where
  | register (c : ConnId)
  | unregister (c : ConnId)
  deriving DecidableEq, Repr

/-- The command that carries a membership operation to the command loop. -/
def RegistryOp.toCommand : RegistryOp → Command
  | .register c => .register c
  | .unregister c => .unregister c

/-- The specification side of the membership invariant: in the sequence `ops`, the
connection `c` was registered and has not been unregistered since. -/
def RegisteredNotUnregistered (ops : List RegistryOp) (c : ConnId) : Prop :=
  ∃ before after, ops = before ++ RegistryOp.register c :: after ∧
    RegistryOp.unregister c ∉ after

/-- The hub after the sessions 1 (A), 2 (B) and 3 (C) were accepted, in that order. -/
def hubABC (capacity : Nat) : Hub :=
  serveWs (serveWs (serveWs (newHub capacity) 1) 2) 3

/-- The hub `hubABC` after A has sent `"hi"` and the outbound pump of each of the
three connections has taken one turn with a successful write. -/
def hubABCDelivered (capacity : Nat) : Hub :=
  ((((hubABC capacity).onMessage 1 "hi").writePump 1 true).writePump 2 true).writePump 3 true

/-- A hub with queues of capacity 1 in which A (1) and B (2) are registered and A has
sent `"x"`: the queue of B is full, its outbound pump has not run yet. -/
def hubSaturated : Hub :=
  Hub.onMessage (serveWs (serveWs (newHub 1) 1) 2) 1 "x"

end hub

/-! ## `cmd/service/main.go`: the shutdown path -/

namespace service

end service


/-! ## Lemmas on the store -/

section StoreLemmas

open repository service

theorem findUser_username {db : DB} {u : String} {r : Row}
    (h : db.findUser u = some r) : r.username = u := by
  have := List.find?_some h
  simpa using this

theorem any_of_findUser {db : DB} {u : String} {r : Row}
    (h : db.findUser u = some r) :
    db.rows.any (fun r => r.username == u) = true := by
  rw [List.any_eq_true]
  exact ⟨r, List.mem_of_find?_eq_some h, by simpa using findUser_username h⟩

theorem any_of_findUser_none {db : DB} {u : String}
    (h : db.findUser u = none) :
    db.rows.any (fun r => r.username == u) = false := by
  unfold DB.findUser at h
  rw [List.find?_eq_none] at h
  rw [List.any_eq_false]
  exact h

theorem insertUser_found {db : DB} {u : String} {r : Row} (hash : String)
    (h : db.findUser u = some r) :
    db.insertUser u hash = (.error (.PgError pgerrcode.UniqueViolation
      "duplicate key value violates unique constraint"), db) := by
  simp [DB.insertUser, any_of_findUser h]

theorem insertUser_fresh {db : DB} {u : String} (hash : String)
    (h : db.findUser u = none) :
    db.insertUser u hash = (.ok db.nextId,
      { rows := db.rows ++ [⟨db.nextId, u, hash⟩], nextId := db.nextId + 1 }) := by
  simp [DB.insertUser, any_of_findUser_none h]

theorem PG_Registration_found (B : Bcrypt) (salt : Nat) {db : DB} {input : User} {r : Row}
    (h : db.findUser input.Username = some r) :
    PG.Registration B salt input db = (.error .ErrAlreadyExists, db) := by
  simp [PG.Registration, insertUser_found _ h, errorsAsPgError]

theorem PG_Registration_fresh (B : Bcrypt) (salt : Nat) {db : DB} {input : User}
    (h : db.findUser input.Username = none) :
    PG.Registration B salt input db = (.ok db.nextId,
      { rows := db.rows ++
          [⟨db.nextId, input.Username, PG.hashPassword B salt input.Password⟩],
        nextId := db.nextId + 1 }) := by
  simp [PG.Registration, insertUser_fresh _ h]

end StoreLemmas

section ServiceLemmas

open repository service

/-- Appending a row does not change what an earlier match yields. -/
theorem findUser_append_of_some {db : DB} {u : String} {r : Row} (extra : List Row) (n : Int)
    (h : db.findUser u = some r) :
    DB.findUser { rows := db.rows ++ extra, nextId := n } u = some r := by
  unfold DB.findUser at h ⊢
  simp [List.find?_append, h]

/-- A registration never removes or changes the row of a stored username. -/
theorem findUser_PG_Registration (B : Bcrypt) (salt : Nat) (input : User) {db : DB}
    {u : String} {r : Row} (h : db.findUser u = some r) :
    (PG.Registration B salt input db).2.findUser u = some r := by
  cases hin : db.findUser input.Username with
  | some r0 => rw [PG_Registration_found B salt hin]; exact h
  | none => rw [PG_Registration_fresh B salt hin]; exact findUser_append_of_some _ _ h

/-- A login leaves the store as it is. -/
theorem PG_Login_store (B : Bcrypt) (input : User) (db : DB) :
    (PG.Login B input db).2 = db := by
  unfold PG.Login
  split
  · rfl
  · split
    · rfl
    · split <;> rfl

/-- The store after `Router.registration` is the store after `PG.Registration`. -/
theorem registration_store (B : Bcrypt) (salt : Nat) (input : User) (db : DB) :
    (postRegistration B salt input db).2 = (PG.Registration B salt input db).2 := by
  simp only [postRegistration, serve, rest.Router.registration, rest.BindJSON, app,
    internal.App.Registration, pgStorage]
  rcases hreg : PG.Registration B salt input db with ⟨res, db1⟩
  cases res with
  | ok id => rfl
  | error err => simp only []; split_ifs <;> rfl

/-- The store after `Router.login` is unchanged. -/
theorem login_store (B : Bcrypt) (input : User) (db : DB) :
    (postLogin B input db).2 = db := by
  have hst := PG_Login_store B input db
  simp only [postLogin, serve, rest.Router.login, rest.BindJSON, app,
    internal.App.Login, pgStorage]
  rcases hlog : PG.Login B input db with ⟨res, db1⟩
  rw [hlog] at hst
  cases res with
  | ok user => exact hst
  | error err => simp only []; split_ifs <;> exact hst

/-- Serving a request never removes or changes the row of a stored username. -/
theorem findUser_serve (B : Bcrypt) (req : Request) {db : DB} {u : String} {r : Row}
    (h : db.findUser u = some r) : (serve B db req).2.findUser u = some r := by
  cases req with
  | registration body salt =>
      cases body with
      | malformed err => exact h
      | wellFormed input =>
          have := registration_store B salt input db
          simp only [postRegistration] at this
          rw [this]
          exact findUser_PG_Registration B salt input h
  | login body =>
      cases body with
      | malformed err => exact h
      | wellFormed input =>
          have := login_store B input db
          simp only [postLogin] at this
          rw [this]
          exact h

/-- Serving a sequence of requests never removes or changes a stored row. -/
theorem findUser_serveAll (B : Bcrypt) (reqs : List Request) {db : DB} {u : String} {r : Row}
    (h : db.findUser u = some r) : (serveAll B db reqs).findUser u = some r := by
  induction reqs generalizing db with
  | nil => exact h
  | cons req later ih => exact ih (findUser_serve B req h)

end ServiceLemmas

section HandlerLemmas

open repository service

/-- The row stored by a registration of a username that had none. -/
theorem findUser_after_fresh (B : Bcrypt) (salt : Nat) {db : DB} {input : User}
    (h : db.findUser input.Username = none) :
    (PG.Registration B salt input db).2.findUser input.Username =
      some ⟨db.nextId, input.Username, PG.hashPassword B salt input.Password⟩ := by
  rw [PG_Registration_fresh B salt h]
  unfold DB.findUser at h ⊢
  simp [List.find?_append, h]

/-- The answer to `POST /registration` for a stored username. -/
theorem postRegistration_found (B : Bcrypt) (salt : Nat) {db : DB} {input : User} {r : Row}
    (h : db.findUser input.Username = some r) :
    postRegistration B salt input db =
      (⟨http.StatusConflict,
        .text (GoError.wrap "err while registration: " .ErrAlreadyExists).Error⟩, db) := by
  simp [postRegistration, serve, rest.Router.registration, rest.BindJSON, app,
    internal.App.Registration, pgStorage, PG_Registration_found B salt h, errorsIs]

/-- The answer to `POST /registration` for a username that is not stored. -/
theorem postRegistration_fresh (B : Bcrypt) (salt : Nat) {db : DB} {input : User}
    (h : db.findUser input.Username = none) :
    postRegistration B salt input db =
      (⟨http.StatusCreated, .id db.nextId⟩, (PG.Registration B salt input db).2) := by
  simp [postRegistration, serve, rest.Router.registration, rest.BindJSON, app,
    internal.App.Registration, pgStorage, PG_Registration_fresh B salt h]

/-- A registration answered 201 was one of a username that was not stored. -/
theorem fresh_of_created (B : Bcrypt) (salt : Nat) {db : DB} {input : User}
    (h : (postRegistration B salt input db).1.status = http.StatusCreated) :
    db.findUser input.Username = none := by
  cases hin : db.findUser input.Username with
  | none => rfl
  | some r =>
      rw [postRegistration_found B salt hin] at h
      simp [http.StatusConflict, http.StatusCreated] at h

/-- The method `PG.Login` for a username without a row. -/
theorem PG_Login_no_row (B : Bcrypt) {db : DB} {input : User}
    (hnone : db.findUser input.Username = none) :
    PG.Login B input db = (.error .ErrNoRows, db) := by
  unfold PG.Login
  simp only [DB.getPassword, hnone]

/-- The method `PG.Login` when bcrypt rejects the password against the stored hash. -/
theorem PG_Login_mismatch (B : Bcrypt) {db : DB} {input : User} {row : Row}
    (hrow : db.findUser input.Username = some row)
    (hmismatch : B.CompareHashAndPassword row.password input.Password ≠ none) :
    PG.Login B input db = (.error .ErrInvalidCredentials, db) := by
  unfold PG.Login
  simp only [DB.getPassword, hrow]
  cases hc : B.CompareHashAndPassword row.password input.Password with
  | none => exact absurd hc hmismatch
  | some e => rfl

/-- The method `PG.Login` when bcrypt accepts the password against the stored hash. -/
theorem PG_Login_match (B : Bcrypt) {db : DB} {input : User} {row : Row}
    (hrow : db.findUser input.Username = some row)
    (hmatch : B.CompareHashAndPassword row.password input.Password = none) :
    PG.Login B input db = (.ok ⟨row.id, row.username, row.password⟩, db) := by
  unfold PG.Login
  simp only [DB.getPassword, DB.getUser, hrow, hmatch]

/-- The answer of `Router.login` to a well-formed body, from the result of `PG.Login`. -/
theorem postLogin_of_PG_Login (B : Bcrypt) (db : DB) (input : User) :
    (postLogin B input db).1 =
      match (PG.Login B input db).1 with
      | .ok user => ⟨http.StatusOK, .user user⟩
      | .error err =>
          if errorsIs (.wrap "err while login: " err) .ErrInvalidCredentials then
            ⟨http.StatusForbidden, .text (GoError.wrap "err while login: " err).Error⟩
          else
            ⟨http.StatusInternalServerError,
              .text (GoError.wrap "err while login: " err).Error⟩ := by
  simp only [postLogin, serve, rest.Router.login, rest.BindJSON, app, internal.App.Login,
    pgStorage]
  rcases PG.Login B input db with ⟨res, db1⟩
  cases res with
  | ok user => rfl
  | error err => simp only []; split_ifs <;> rfl

end HandlerLemmas

/-! ## The registration and login contracts -/

section Contracts

open repository service

/-- C1. Once `POST /registration` with a username has been answered 201, every later
`POST /registration` with that username, whatever its password and whatever requests
were served in between, is answered 409 Conflict: `PG.Registration` returns
`ErrAlreadyExists`, `App.Registration` wraps it, `errors.Is` still recognises it, and
`Router.registration` answers `StatusConflict`. -/
theorem registration_conflict (B : Bcrypt) (db : DB) (first second : User)
    (salt salt2 : Nat) (later : List Request)
    (hcreated : (postRegistration B salt first db).1.status = http.StatusCreated)
    (hsame : second.Username = first.Username) :
    (PG.Registration B salt2 second
        (serveAll B (postRegistration B salt first db).2 later)).1
      = .error .ErrAlreadyExists ∧
    (internal.App.Registration (pgStorage B salt2) second
        (serveAll B (postRegistration B salt first db).2 later)).1
      = .error (.wrap "err while registration: " .ErrAlreadyExists) ∧
    errorsIs (.wrap "err while registration: " .ErrAlreadyExists) .ErrAlreadyExists = true ∧
    (postRegistration B salt2 second
        (serveAll B (postRegistration B salt first db).2 later)).1.status
      = http.StatusConflict := by
  have hfresh := fresh_of_created B salt hcreated
  have hrow := findUser_after_fresh B salt hfresh
  rw [← registration_store, ← hsame] at hrow
  have hlater := findUser_serveAll B later hrow
  refine ⟨?_, ?_, ?_, ?_⟩
  · rw [PG_Registration_found B salt2 hlater]
  · simp [internal.App.Registration, pgStorage, PG_Registration_found B salt2 hlater]
  · simp [errorsIs]
  · rw [postRegistration_found B salt2 hlater]

/-- C1, on the requests of `TestRegisterConflict`. -/
theorem registration_conflict_witness :
    (postRegistration demoBcrypt 7 ⟨0, "anuar@23", "sjdgkjdsk82"⟩ emptyDB).1.status
      = http.StatusCreated ∧
    (postRegistration demoBcrypt 8 ⟨0, "anuar@23", "sjdgkjdsk82"⟩
        (serveAll demoBcrypt
          (postRegistration demoBcrypt 7 ⟨0, "anuar@23", "sjdgkjdsk82"⟩ emptyDB).2
          [])).1.status
      = http.StatusConflict :=
  ⟨by decide,
   (registration_conflict demoBcrypt emptyDB ⟨0, "anuar@23", "sjdgkjdsk82"⟩
      ⟨0, "anuar@23", "sjdgkjdsk82"⟩ 7 8 [] (by decide) rfl).2.2.2⟩

/-- C2. For a stored username and a submitted password that bcrypt does not accept
against the stored hash, `PG.Login` returns `ErrInvalidCredentials`, `App.Login`
wraps it, `errors.Is` recognises it, and `POST /login` is answered 403 Forbidden. -/
theorem login_forbidden (B : Bcrypt) (db : DB) (input : User) (row : Row)
    (hrow : db.findUser input.Username = some row)
    (hmismatch : B.CompareHashAndPassword row.password input.Password ≠ none) :
    PG.Login B input db = (.error .ErrInvalidCredentials, db) ∧
    (internal.App.Login (pgStorage B 0) input db).1
      = .error (.wrap "err while login: " .ErrInvalidCredentials) ∧
    errorsIs (.wrap "err while login: " .ErrInvalidCredentials) .ErrInvalidCredentials
      = true ∧
    (postLogin B input db).1.status = http.StatusForbidden := by
  have hpg := PG_Login_mismatch B hrow hmismatch
  refine ⟨hpg, ?_, ?_, ?_⟩
  · simp [internal.App.Login, pgStorage, hpg]
  · simp [errorsIs]
  · rw [postLogin_of_PG_Login, hpg]
    simp [errorsIs]

/-- C2, on the requests of `TestLoginForbidden`. -/
theorem login_forbidden_witness :
    (postLogin demoBcrypt ⟨0, "Moon@23", "opopola82"⟩
      ⟨[⟨1, "Moon@23", "$2a$10$sjdgkjdsk82"⟩], 2⟩).1.status = http.StatusForbidden :=
  (login_forbidden demoBcrypt ⟨[⟨1, "Moon@23", "$2a$10$sjdgkjdsk82"⟩], 2⟩
    ⟨0, "Moon@23", "opopola82"⟩ ⟨1, "Moon@23", "$2a$10$sjdgkjdsk82"⟩
    (by decide) (by decide)).2.2.2

/-- The answer to `POST /login` when the stored hash accepts the password. -/
theorem postLogin_match (B : Bcrypt) {db : DB} {input : User} {row : Row}
    (hrow : db.findUser input.Username = some row)
    (hmatch : B.CompareHashAndPassword row.password input.Password = none) :
    PG.Login B input db = (.ok ⟨row.id, row.username, row.password⟩, db) ∧
    postLogin B input db =
      (⟨http.StatusOK, .user ⟨row.id, row.username, row.password⟩⟩, db) := by
  have hpg := PG_Login_match B hrow hmatch
  refine ⟨hpg, ?_⟩
  have hst := login_store B input db
  have hresp := postLogin_of_PG_Login B db input
  rw [hpg] at hresp
  exact Prod.ext hresp hst

/-- When bcrypt keeps its contract and returns a hash for the password, a
`POST /registration` answered 201 is followed, whatever requests are served in
between, by a `POST /login` with the same username and password that is answered 200
with the stored user of that username. -/
theorem login_after_hashed_registration (B : Bcrypt) (hB : B.Sound) (db : DB) (input : User)
    (salt : Nat) (later : List Request) (again : User) (hash : String)
    (hgen : B.GenerateFromPassword input.Password 10 salt = .ok hash)
    (hcreated : (postRegistration B salt input db).1.status = http.StatusCreated)
    (hname : again.Username = input.Username) (hpass : again.Password = input.Password) :
    (postLogin B again (serveAll B (postRegistration B salt input db).2 later)).1
      = ⟨http.StatusOK, .user ⟨db.nextId, input.Username, hash⟩⟩ := by
  have hfresh := fresh_of_created B salt hcreated
  have hrow := findUser_after_fresh B salt hfresh
  rw [← registration_store] at hrow
  have hlater := findUser_serveAll B later hrow
  rw [← hname] at hlater
  have hstored : PG.hashPassword B salt input.Password = hash := by
    simp [PG.hashPassword, hgen]
  have hmatch : B.CompareHashAndPassword
      (Row.mk db.nextId input.Username (PG.hashPassword B salt input.Password)).password
      again.Password = none := by
    rw [hpass]
    simpa [hstored] using hB _ _ _ _ hgen
  rw [(postLogin_match B hlater hmatch).2]
  simp [hname, hstored]

/-- The demonstration instance keeps the contract of bcrypt. -/
theorem demoBcrypt_sound : demoBcrypt.Sound := by
  intro password cost salt hash h
  simp only [demoBcrypt] at h ⊢
  split_ifs at h with hlen
  cases h
  simp

/-- The requests of `TestRegistrationAndLogin`: registration 201, then login 200 with
the stored user. -/
theorem login_after_hashed_registration_example :
    (postRegistration demoBcrypt 3 ⟨0, "aspan", "qwerty987654"⟩ emptyDB).1.status
      = http.StatusCreated ∧
    (postLogin demoBcrypt ⟨0, "aspan", "qwerty987654"⟩
      (serveAll demoBcrypt
        (postRegistration demoBcrypt 3 ⟨0, "aspan", "qwerty987654"⟩ emptyDB).2 [])).1
      = ⟨http.StatusOK, .user ⟨1, "aspan", "$2a$10$qwerty987654"⟩⟩ :=
  ⟨by decide,
   login_after_hashed_registration demoBcrypt demoBcrypt_sound emptyDB
     ⟨0, "aspan", "qwerty987654"⟩ 3 [] ⟨0, "aspan", "qwerty987654"⟩
     "$2a$10$qwerty987654" rfl (by decide) rfl rfl⟩

/-- C3, at a password that bcrypt refuses to hash. The password `longPassword` has 73
characters; `GenerateFromPassword` returns an error, `PG.hashPassword` drops it and
yields the empty hash; `POST /registration` is answered 201 all the same and stores
the row with the empty hash; the following `POST /login` with the same username and
password is not answered 200, and no user is returned. -/
theorem registration_then_login_hash_error_dropped :
    longPassword.length = 73 ∧
    (∃ err, demoBcrypt.GenerateFromPassword longPassword 10 3 = .error err) ∧
    PG.hashPassword demoBcrypt 3 longPassword = "" ∧
    (postRegistration demoBcrypt 3 ⟨0, "aspan", longPassword⟩ emptyDB).1
      = ⟨http.StatusCreated, .id 1⟩ ∧
    (postRegistration demoBcrypt 3 ⟨0, "aspan", longPassword⟩ emptyDB).2.findUser "aspan"
      = some ⟨1, "aspan", ""⟩ ∧
    (postLogin demoBcrypt ⟨0, "aspan", longPassword⟩
      (postRegistration demoBcrypt 3 ⟨0, "aspan", longPassword⟩ emptyDB).2).1.status
      ≠ http.StatusOK ∧
    (∀ user, (PG.Login demoBcrypt ⟨0, "aspan", longPassword⟩
      (postRegistration demoBcrypt 3 ⟨0, "aspan", longPassword⟩ emptyDB).2).1
      ≠ .ok user) := by
  refine ⟨by decide, ⟨_, rfl⟩, by decide, by decide, by decide, by decide, ?_⟩
  intro user h
  have hlogin : (PG.Login demoBcrypt ⟨0, "aspan", longPassword⟩
      (postRegistration demoBcrypt 3 ⟨0, "aspan", longPassword⟩ emptyDB).2).1
      = .error .ErrInvalidCredentials := rfl
  rw [hlogin] at h
  cases h

/-- What a registration of a username that is not stored returns at each layer: the
store inserts the row under its next id; `PG.Registration` returns what the store
returned; `App.Registration` returns that unchanged; the handler answers 201 with
that id; and afterwards the row of the user is stored under that id. -/
theorem registration_fresh_layers (B : Bcrypt) (salt : Nat) {db : DB} {input : User}
    (h : db.findUser input.Username = none) :
    (db.insertUser input.Username (PG.hashPassword B salt input.Password)).1
      = .ok db.nextId ∧
    PG.Registration B salt input db
      = db.insertUser input.Username (PG.hashPassword B salt input.Password) ∧
    internal.App.Registration (pgStorage B salt) input db
      = PG.Registration B salt input db ∧
    postRegistration B salt input db
      = (⟨http.StatusCreated, .id db.nextId⟩, (PG.Registration B salt input db).2) ∧
    (postRegistration B salt input db).2.findUser input.Username
      = some ⟨db.nextId, input.Username, PG.hashPassword B salt input.Password⟩ ∧
    (postRegistration B salt input db).2.nextId = db.nextId + 1 := by
  have hins := insertUser_fresh (PG.hashPassword B salt input.Password) h
  have hpg := PG_Registration_fresh B salt h
  have hpost := postRegistration_fresh B salt h
  refine ⟨by rw [hins], by rw [hpg, hins], ?_, hpost, ?_, ?_⟩
  · simp [internal.App.Registration, pgStorage, hpg]
  · rw [registration_store]
    exact findUser_after_fresh B salt h
  · rw [registration_store, hpg]

/-- A registration of one username does not store another. -/
theorem findUser_none_after_other (B : Bcrypt) (salt : Nat) {db : DB} {a : User}
    {u : String} (hdiff : a.Username ≠ u) (hu : db.findUser u = none) :
    (postRegistration B salt a db).2.findUser u = none := by
  rw [registration_store]
  cases ha : db.findUser a.Username with
  | some r => rw [PG_Registration_found B salt ha]; exact hu
  | none =>
      rw [PG_Registration_fresh B salt ha]
      unfold DB.findUser at hu ⊢
      simp [List.find?_append, hu, hdiff]

/-- C4. For two users with different usernames, neither of them stored, registering
the one and then the other succeeds both times. At each of the two requests the
store inserts the row and returns its next id (`db.nextId`, then `db.nextId + 1`),
`PG.Registration` returns exactly what the store returned, `App.Registration`
returns that unchanged with no error, `POST /registration` is answered 201 Created
carrying that id, and the user is stored under that id; after the second request
both users are stored. -/
theorem registration_non_conflict (B : Bcrypt) (db : DB) (a b : User) (saltA saltB : Nat)
    (hdiff : a.Username ≠ b.Username)
    (ha : db.findUser a.Username = none) (hb : db.findUser b.Username = none) :
    ((db.insertUser a.Username (PG.hashPassword B saltA a.Password)).1 = .ok db.nextId ∧
      PG.Registration B saltA a db
        = db.insertUser a.Username (PG.hashPassword B saltA a.Password) ∧
      internal.App.Registration (pgStorage B saltA) a db = PG.Registration B saltA a db ∧
      postRegistration B saltA a db
        = (⟨http.StatusCreated, .id db.nextId⟩, (PG.Registration B saltA a db).2) ∧
      (postRegistration B saltA a db).2.findUser a.Username
        = some ⟨db.nextId, a.Username, PG.hashPassword B saltA a.Password⟩) ∧
    (((postRegistration B saltA a db).2.insertUser b.Username
          (PG.hashPassword B saltB b.Password)).1 = .ok (db.nextId + 1) ∧
      PG.Registration B saltB b (postRegistration B saltA a db).2
        = (postRegistration B saltA a db).2.insertUser b.Username
            (PG.hashPassword B saltB b.Password) ∧
      internal.App.Registration (pgStorage B saltB) b (postRegistration B saltA a db).2
        = PG.Registration B saltB b (postRegistration B saltA a db).2 ∧
      postRegistration B saltB b (postRegistration B saltA a db).2
        = (⟨http.StatusCreated, .id (db.nextId + 1)⟩,
            (PG.Registration B saltB b (postRegistration B saltA a db).2).2) ∧
      (postRegistration B saltB b (postRegistration B saltA a db).2).2.findUser b.Username
        = some ⟨db.nextId + 1, b.Username, PG.hashPassword B saltB b.Password⟩ ∧
      (postRegistration B saltB b (postRegistration B saltA a db).2).2.findUser a.Username
        = some ⟨db.nextId, a.Username, PG.hashPassword B saltA a.Password⟩) := by
  have hfirst := registration_fresh_layers B saltA ha
  have hsecond := registration_fresh_layers B saltB
    (findUser_none_after_other B saltA hdiff hb)
  rw [hfirst.2.2.2.2.2] at hsecond
  refine ⟨⟨hfirst.1, hfirst.2.1, hfirst.2.2.1, hfirst.2.2.2.1, hfirst.2.2.2.2.1⟩,
    hsecond.1, hsecond.2.1, hsecond.2.2.1, hsecond.2.2.2.1, hsecond.2.2.2.2.1, ?_⟩
  have hkeep := findUser_serve B (.registration (.wellFormed b) saltB) hfirst.2.2.2.2.1
  exact hkeep

/-- C4, on the requests of `TestRegisterNonConflict`: the two users share a password,
the store returns the ids 1 and 2, and both rows are stored. -/
theorem registration_non_conflict_witness :
    (emptyDB.findUser "ans@23" = none ∧ emptyDB.findUser "sdds@23" = none) ∧
    postRegistration demoBcrypt 1 ⟨0, "ans@23", "sjdgkjdsk82"⟩ emptyDB
      = (⟨http.StatusCreated, .id 1⟩, ⟨[⟨1, "ans@23", "$2a$10$sjdgkjdsk82"⟩], 2⟩) ∧
    (postRegistration demoBcrypt 2 ⟨0, "sdds@23", "sjdgkjdsk82"⟩
      (postRegistration demoBcrypt 1 ⟨0, "ans@23", "sjdgkjdsk82"⟩ emptyDB).2).1
      = ⟨http.StatusCreated, .id 2⟩ ∧
    (postRegistration demoBcrypt 2 ⟨0, "sdds@23", "sjdgkjdsk82"⟩
      (postRegistration demoBcrypt 1 ⟨0, "ans@23", "sjdgkjdsk82"⟩ emptyDB).2).2.findUser
        "sdds@23" = some ⟨2, "sdds@23", "$2a$10$sjdgkjdsk82"⟩ ∧
    (postRegistration demoBcrypt 2 ⟨0, "sdds@23", "sjdgkjdsk82"⟩
      (postRegistration demoBcrypt 1 ⟨0, "ans@23", "sjdgkjdsk82"⟩ emptyDB).2).2.findUser
        "ans@23" = some ⟨1, "ans@23", "$2a$10$sjdgkjdsk82"⟩ :=
  have h := registration_non_conflict demoBcrypt emptyDB ⟨0, "ans@23", "sjdgkjdsk82"⟩
    ⟨0, "sdds@23", "sjdgkjdsk82"⟩ 1 2 (by decide) rfl rfl
  ⟨⟨rfl, rfl⟩, h.1.2.2.2.1, congrArg Prod.fst h.2.2.2.2.1, h.2.2.2.2.2.1, h.2.2.2.2.2.2⟩

/-- C9. For a username without a row, `PG.Login` returns `sql.ErrNoRows` as it is,
not `ErrInvalidCredentials`; `App.Login` wraps it; `errors.Is` does not find
`ErrInvalidCredentials` in it; and `POST /login` is answered 500, not 403. -/
theorem login_unknown_user (B : Bcrypt) (db : DB) (input : User)
    (hnone : db.findUser input.Username = none) :
    PG.Login B input db = (.error .ErrNoRows, db) ∧
    (internal.App.Login (pgStorage B 0) input db).1
      = .error (.wrap "err while login: " .ErrNoRows) ∧
    errorsIs (.wrap "err while login: " .ErrNoRows) .ErrInvalidCredentials = false ∧
    (postLogin B input db).1.status = http.StatusInternalServerError ∧
    (postLogin B input db).1.status ≠ http.StatusForbidden := by
  have hpg := PG_Login_no_row B hnone
  have hstatus : (postLogin B input db).1.status = http.StatusInternalServerError := by
    rw [postLogin_of_PG_Login, hpg]
    simp [errorsIs]
  refine ⟨hpg, ?_, ?_, hstatus, ?_⟩
  · simp [internal.App.Login, pgStorage, hpg]
  · simp [errorsIs]
  · rw [hstatus]; decide

/-- C9, on a login against the empty table. -/
theorem login_unknown_user_witness :
    (postLogin demoBcrypt ⟨0, "nobody", "secret"⟩ emptyDB).1.status
      = http.StatusInternalServerError :=
  (login_unknown_user demoBcrypt emptyDB ⟨0, "nobody", "secret"⟩ rfl).2.2.2.1

/-- C10. On every successful login the user returned by `PG.Login` is the stored row
of the submitted username: its `ID`, `Username` and `Password` are the id, the
username and the password hash of that row (the submitted password is not copied into it);
`App.Login` returns the same user, and `Router.login` answers 200 with it as body. -/
theorem login_returns_stored_row (B : Bcrypt) (db : DB) (input resp : User)
    (hok : (PG.Login B input db).1 = .ok resp) :
    ∃ row : Row,
      row ∈ db.rows ∧ row.username = input.Username ∧
      db.findUser input.Username = some row ∧
      resp.ID = row.id ∧ resp.Username = row.username ∧ resp.Password = row.password ∧
      (internal.App.Login (pgStorage B 0) input db).1 = .ok resp ∧
      (postLogin B input db).1 = ⟨http.StatusOK, .user resp⟩ := by
  cases hrow : db.findUser input.Username with
  | none =>
      rw [PG_Login_no_row B hrow] at hok
      cases hok
  | some row =>
      cases hc : B.CompareHashAndPassword row.password input.Password with
      | some e =>
          rw [PG_Login_mismatch B hrow (by simp [hc])] at hok
          cases hok
      | none =>
          have hm := postLogin_match B hrow hc
          rw [hm.1] at hok
          cases hok
          refine ⟨row, List.mem_of_find?_eq_some hrow, findUser_username hrow, rfl,
            rfl, rfl, rfl, ?_, ?_⟩
          · simp [internal.App.Login, pgStorage, hm.1]
          · rw [hm.2]

/-- C10, on a login whose stored hash differs from the submitted password. -/
theorem login_returns_stored_row_witness :
    ∃ row : Row,
      row ∈ [(⟨1, "aspan", "$2a$10$qwerty987654"⟩ : Row)] ∧ row.username = "aspan" ∧
      DB.findUser ⟨[⟨1, "aspan", "$2a$10$qwerty987654"⟩], 2⟩ "aspan" = some row ∧
      (1 : Int) = row.id ∧ "aspan" = row.username ∧
      "$2a$10$qwerty987654" = row.password ∧
      (internal.App.Login (pgStorage demoBcrypt 0) ⟨0, "aspan", "qwerty987654"⟩
        ⟨[⟨1, "aspan", "$2a$10$qwerty987654"⟩], 2⟩).1
        = .ok ⟨1, "aspan", "$2a$10$qwerty987654"⟩ ∧
      (postLogin demoBcrypt ⟨0, "aspan", "qwerty987654"⟩
        ⟨[⟨1, "aspan", "$2a$10$qwerty987654"⟩], 2⟩).1
        = ⟨http.StatusOK, .user ⟨1, "aspan", "$2a$10$qwerty987654"⟩⟩ :=
  login_returns_stored_row demoBcrypt ⟨[⟨1, "aspan", "$2a$10$qwerty987654"⟩], 2⟩
    ⟨0, "aspan", "qwerty987654"⟩ ⟨1, "aspan", "$2a$10$qwerty987654"⟩ rfl

end Contracts

/-! ## The hub: broadcast, membership, unregistration -/

section HubLemmas

open hub

/-- Membership after `unregister`. -/
theorem mem_clients_unregister (h : Hub) (c d : ConnId) :
    d ∈ (h.unregister c).clients ↔ d ∈ h.clients ∧ d ≠ c := by
  unfold Hub.unregister
  split_ifs with hc
  · simp [Finset.mem_erase, and_comm]
  · constructor
    · intro hd
      exact ⟨hd, fun hdc => hc (hdc ▸ hd)⟩
    · exact fun hd => hd.1

/-- Membership after `register`. -/
theorem mem_clients_register (h : Hub) (c d : ConnId) :
    d ∈ (h.register c).clients ↔ d = c ∨ d ∈ h.clients := by
  simp [Hub.register]

/-- The command loop handles an appended command last. -/
theorem run_append_one (h : Hub) (commands : List Command) (command : Command) :
    Hub.run h (commands ++ [command]) = Hub.step (Hub.run h commands) command := by
  simp [Hub.run, List.foldl_append]

/-- The specification predicate, one operation later. -/
theorem registeredNotUnregistered_append_one (ops : List RegistryOp) (op : RegistryOp)
    (c : ConnId) :
    RegisteredNotUnregistered (ops ++ [op]) c ↔
      op = .register c ∨ (RegisteredNotUnregistered ops c ∧ op ≠ .unregister c) := by
  constructor
  · rintro ⟨before, after, heq, hnot⟩
    rcases List.eq_nil_or_concat after with hnil | ⟨front, last, hlast⟩
    · subst hnil
      left
      have h1 : ops ++ [op] = before ++ [RegistryOp.register c] := by simpa using heq
      exact (List.append_inj' h1 rfl).2 |> List.singleton_inj.mp
    · subst hlast
      right
      have h1 : ops ++ [op] = (before ++ RegistryOp.register c :: front) ++ [last] := by
        simpa using heq
      have h2 := List.append_inj' h1 rfl
      have hop : op = last := List.singleton_inj.mp h2.2
      simp only [List.concat_eq_append, List.mem_append, List.mem_singleton, not_or] at hnot
      exact ⟨⟨before, front, h2.1, hnot.1⟩, by rw [hop]; exact fun hl => hnot.2 hl.symm⟩
  · rintro (hop | ⟨⟨before, after, heq, hnot⟩, hop⟩)
    · exact ⟨ops, [], by simp [hop], by simp⟩
    · refine ⟨before, after ++ [op], by simp [heq], ?_⟩
      simp only [List.mem_append, List.mem_singleton, not_or]
      exact ⟨hnot, fun hl => hop hl.symm⟩

end HubLemmas

section HubContracts

open hub

/-- C5, as stated, fails when a queue is full: in `hubSaturated` the connection B (2)
is registered and is not the sender A (1), yet after A sends `"hi"` the payload is
not in the queue of B; B has been dropped from the registry instead. -/
theorem broadcast_full_queue_not_enqueued :
    2 ∈ hubSaturated.clients ∧ (2 : ConnId) ≠ 1 ∧
    hubSaturated.send 2 = ["x"] ∧ hubSaturated.capacity = 1 ∧
    "hi" ∉ (hubSaturated.onMessage 1 "hi").send 2 ∧
    (hubSaturated.onMessage 1 "hi").send 2 ≠ hubSaturated.send 2 ++ ["hi"] ∧
    2 ∉ (hubSaturated.onMessage 1 "hi").clients := by
  decide

/-- C5, amended. For every broadcast of a payload sent by a connection S through the
hub: the queue of S is left as it was; every other registered connection whose
queue is not full has the payload appended to its queue and stays registered;
every other registered connection whose queue is full is unregistered with an
empty queue; and with A, B, C registered on a hub of positive capacity and A
sending `"hi"`, B and C each have exactly `"hi"` queued, and written to their
transport by their outbound pumps, and A has nothing queued or written. -/
theorem broadcast_excludes_sender_reaches_others (h : Hub) (s : ConnId) (payload : Payload) :
    (h.onMessage s payload).send s = h.send s ∧
    (∀ c ∈ h.clients, c ≠ s → (h.send c).length < h.capacity →
      (h.onMessage s payload).send c = h.send c ++ [payload] ∧
      c ∈ (h.onMessage s payload).clients) ∧
    (∀ c ∈ h.clients, c ≠ s → h.capacity ≤ (h.send c).length →
      (h.onMessage s payload).send c = [] ∧ c ∉ (h.onMessage s payload).clients) ∧
    (∀ capacity, 0 < capacity →
      ((hubABC capacity).onMessage 1 "hi").send 1 = [] ∧
      ((hubABC capacity).onMessage 1 "hi").send 2 = ["hi"] ∧
      ((hubABC capacity).onMessage 1 "hi").send 3 = ["hi"] ∧
      (hubABCDelivered capacity).written 1 = [] ∧
      (hubABCDelivered capacity).written 2 = ["hi"] ∧
      (hubABCDelivered capacity).written 3 = ["hi"]) := by
  refine ⟨?_, ?_, ?_, ?_⟩
  · simp [Hub.onMessage, Hub.broadcast]
  · intro c hc hcs hlen
    have hne : ¬ s = c := fun hsc => hcs hsc.symm
    simp [Hub.onMessage, Hub.broadcast, Hub.offer, hc, hne, hlen]
  · intro c hc hcs hlen
    have hne : ¬ s = c := fun hsc => hcs hsc.symm
    have hfull : ¬ (h.send c).length < h.capacity := Nat.not_lt.mpr hlen
    simp [Hub.onMessage, Hub.broadcast, Hub.offer, hc, hne, hfull]
  · intro capacity hpos
    simp [hubABCDelivered, hubABC, serveWs, newHub, Hub.register, Hub.onMessage,
      Hub.broadcast, Hub.offer, Hub.writePump, hpos]

/-- C5, amended, on the hub with A, B, C registered and queues of capacity 4. -/
theorem broadcast_excludes_sender_reaches_others_witness :
    ((hubABC 4).onMessage 1 "hi").send 1 = (hubABC 4).send 1 ∧
    ((hubABC 4).onMessage 1 "hi").send 2 = (hubABC 4).send 2 ++ ["hi"] ∧
    2 ∈ ((hubABC 4).onMessage 1 "hi").clients :=
  have h := broadcast_excludes_sender_reaches_others (hubABC 4) 1 "hi"
  ⟨h.1, h.2.1 2 (by decide) (by decide) (by decide)⟩

/-- C6. For every sequence of register and unregister operations handled by the
command loop of a new hub, in whatever order concurrent callers had them
serialised, a connection is a member of the registry exactly when the sequence
registered it and has not unregistered it since. -/
theorem registry_membership (capacity : Nat) (ops : List RegistryOp) (c : ConnId) :
    c ∈ (Hub.run (newHub capacity) (ops.map RegistryOp.toCommand)).clients ↔
      RegisteredNotUnregistered ops c := by
  induction ops using List.reverseRecOn with
  | nil =>
      constructor
      · intro hc
        simp [Hub.run, newHub] at hc
      · rintro ⟨before, after, heq, -⟩
        simp at heq
  | append_singleton ops op ih =>
      rw [List.map_append, List.map_singleton, run_append_one,
        registeredNotUnregistered_append_one, ← ih]
      cases op with
      | register d =>
          simp only [RegistryOp.toCommand, Hub.step, mem_clients_register]
          constructor
          · rintro (hcd | hc)
            · exact Or.inl (by rw [hcd])
            · exact Or.inr ⟨hc, by simp⟩
          · rintro (hop | ⟨hc, -⟩)
            · exact Or.inl (by injection hop with hdc; exact hdc.symm)
            · exact Or.inr hc
      | unregister d =>
          simp only [RegistryOp.toCommand, Hub.step, mem_clients_unregister]
          constructor
          · rintro ⟨hc, hcd⟩
            exact Or.inr ⟨hc, fun hop => hcd (by injection hop with hdc; exact hdc.symm)⟩
          · rintro (hop | ⟨hc, hne⟩)
            · cases hop
            · exact ⟨hc, fun hcd => hne (by rw [hcd])⟩

/-- C7. Unregistering is idempotent: a second `unregister` of the same connection,
and an `unregister` of a connection that is not registered, leave the hub, and so
its membership set, as it was; the operation is total, it has no error result. -/
theorem unregister_idempotent (h : Hub) (c : ConnId) :
    (h.unregister c).unregister c = h.unregister c ∧
    ((h.unregister c).unregister c).clients = (h.unregister c).clients ∧
    (c ∉ h.clients → h.unregister c = h ∧ (h.unregister c).clients = h.clients) ∧
    Hub.run h [.unregister c, .unregister c] = Hub.run h [.unregister c] := by
  have hnot : c ∉ (h.unregister c).clients := by
    rw [mem_clients_unregister]
    exact fun hc => hc.2 rfl
  have hnoop : ∀ g : Hub, c ∉ g.clients → g.unregister c = g := by
    intro g hg
    simp [Hub.unregister, hg]
  have htwice := hnoop _ hnot
  refine ⟨htwice, by rw [htwice], fun hc => ⟨hnoop h hc, by rw [hnoop h hc]⟩, ?_⟩
  simp [Hub.run, Hub.step, htwice]

/-- C7, on a connection that was never registered and on one unregistered twice. -/
theorem unregister_idempotent_witness :
    (hubABC 4).unregister 9 = hubABC 4 ∧
    (((hubABC 4).unregister 2).unregister 2).clients = ((hubABC 4).unregister 2).clients :=
  ⟨((unregister_idempotent (hubABC 4) 9).2.2.1 (by decide)).1,
   (unregister_idempotent (hubABC 4) 2).2.1⟩

end HubContracts

/-! ## Shutdown -/

section Shutdown

open hub service

end Shutdown
